import Mathlib

/-!
# SerSource (blockmon): the TCP ingestion block

A shallow embedding of `src/blocks/SerSource.cpp`:

* `SerSource._configure`   : lines 124-151,
* `SerSource.drain_sers`   : the drain loop of `_do_async`, lines 184-197,
* `SerSource.accept_step`  : the accept branch, lines 214-228,
* `SerSource.recv_loop`    : the read loop, lines 230-248,
* `SerSource.loop_body`    : one iteration of `while(1)`, lines 182-249,
* `SerSource.run`          : a finite number of iterations.

The operating system (select, accept, recv) is an explicit input `Env` of every
iteration; the calls the block makes on its collaborators (the decoder, the
output gate, `close`, `select`) are recorded, in order, in `State.log`.
-/

namespace SerSource

/-- One octet. -/
abbrev Byte := Fin 256

/-- The constant `MAX_CLIENT_SOCKET` (line 80). -/
def MAX_CLIENT_SOCKET : Nat := 20

/-! ## Serializer -/

/-- Modelled from the spec: `Serializer` (`Serializer.hpp` is included by the block but
is not among the sources).  It is the per-connection byte accumulator, "an ordered,
appendable, consumable byte sequence": `buf` holds the buffered, not yet consumed
bytes in arrival order. -/
structure Serializer where
  buf : List Byte
deriving DecidableEq

namespace Serializer

/-- Modelled from the spec: `get_len()` is the number of buffered bytes. -/
def get_len (ser : Serializer) : Nat := ser.buf.length

/-- Modelled from the spec: `read_int16()` ("peekLength") reads, without consuming, the
first two buffered bytes as a big-endian unsigned 16-bit integer.  The block only
calls it when `get_len() >= 2`. -/
def read_int16 (ser : Serializer) : Nat :=
  match ser.buf with
  | b0 :: b1 :: _ => b0.val * 256 + b1.val
  | _ => 0

/-- Modelled from the spec: `consume(n)` drops `n` bytes from the head. -/
def consume (ser : Serializer) (n : Nat) : Serializer := ⟨ser.buf.drop n⟩

/-- Modelled from the spec: `add_raw_data(data, n)` ("append") appends the first `n`
bytes of `data` to the tail. -/
def add_raw_data (ser : Serializer) (data : List Byte) (n : Nat) : Serializer :=
  ⟨ser.buf ++ data.take n⟩

/-- Modelled from the spec: `empty()` discards every buffered byte. -/
def empty (_ser : Serializer) : Serializer := ⟨[]⟩

/-- Modelled from the spec: `next()` closes the extraction of one frame; the spec gives
an extraction no effect on the byte sequence besides the consumption of the length field
and of the bytes read by the decoder, so the buffered bytes are left as they are. -/
def next (ser : Serializer) : Serializer := ser

end Serializer

/-- The object created by `new Serializer()` (line 223), before `empty()` is called. -/
def Serializer.fresh : Serializer := ⟨[]⟩

/-! ## Collaborators -/

/-- The decoder `msg_prototype`: `build_same(ser)` receives the accumulator itself, reads
from it what it wants and returns the message built; the model returns the message
and the accumulator as the decoder leaves it. -/
structure MsgPrototype (Msg : Type) where
  build_same : Serializer → Msg × Serializer

/-- The calls the block makes on the outside world, in the order they are made. -/
inductive Event (Msg : Type) where
  /-- The decoder `msg_prototype->build_same(ser)` is invoked (line 192) on the accumulator
  at position `i`, whose content at that moment is `ser`. -/
  | build_same (i : Nat) (ser : Serializer)
  /-- The call `send_record(msg)` (line 192). -/
  | send_record (msg : Msg)
  /-- The readiness wait `select(...)` (line 209). -/
  | select
  /-- The call `close(s)` (line 242). -/
  | close (s : Int)
deriving DecidableEq

/-- The fields of the block used by `_do_async`, and the log of its calls. -/
structure State (Msg : Type) where
  sock : Int
  client_socket : List Int
  sers : List Serializer
  log : List (Event Msg)
deriving DecidableEq

/-- What one `recv(s, tmpstorage, sizeof(tmpstorage), 0)` gives: the returned count and the
content of `tmpstorage`. -/
structure RecvResult where
  retc : Int
  tmpstorage : List Byte

/-- The answers of the operating system during one iteration of the loop. -/
structure Env where
  /-- The value returned by `select`. -/
  select_ret : Int
  /-- The set `read_fds` after `select`: `FD_ISSET(fd, &read_fds)`. -/
  read_fds : Int → Bool
  /-- The value returned by `accept`. -/
  accept_ret : Int
  /-- The result of the `recv` made at loop index `i` on socket `s`. -/
  recv : Nat → Int → RecvResult

/-! ## The drain loop (lines 184-197) -/

/-- The body of the `for` loop over `sers` (lines 186-196) for the accumulator `ser` at
position `i`: the accumulator afterwards, the calls made, and whether `consumed = 1`
was executed. -/
def drain_one {Msg : Type} (dec : MsgPrototype Msg) (i : Nat) (ser : Serializer) :
    Serializer × List (Event Msg) × Bool :=
  if ser.get_len ≥ 2 then
    let msg_len := ser.read_int16
    if ser.get_len ≥ msg_len then
      let ser1 := ser.consume 2
      let built := dec.build_same ser1
      (built.2.next, [Event.build_same i ser1, Event.send_record built.1], true)
    else (ser, [], false)
  else (ser, [], false)

/-- The `for` loop over `sers` from position `i` on (lines 185-197): the accumulators
afterwards, the calls made, and the value of `consumed` (started at 0, line 184). -/
def drain_sers {Msg : Type} (dec : MsgPrototype Msg) :
    Nat → List Serializer → List Serializer × List (Event Msg) × Nat
  | _, [] => ([], [], 0)
  | i, ser :: rest =>
    let r := drain_one dec i ser
    let t := drain_sers dec (i + 1) rest
    (r.1 :: t.1, r.2.1 ++ t.2.1, if r.2.2 then 1 else t.2.2)

/-- The state after one drain pass. -/
def drain_pass {Msg : Type} (dec : MsgPrototype Msg) (st : State Msg) : State Msg :=
  { st with sers := (drain_sers dec 0 st.sers).1,
            log := st.log ++ (drain_sers dec 0 st.sers).2.1 }

/-- The value of `consumed` after one drain pass. -/
def drain_consumed {Msg : Type} (dec : MsgPrototype Msg) (st : State Msg) : Nat :=
  (drain_sers dec 0 st.sers).2.2

/-! ## Accept (lines 214-228) and read (lines 230-248) -/

/-- The accept branch, taken when the listening socket is ready (lines 215-227). -/
def accept_step {Msg : Type} (env : Env) (st : State Msg) : State Msg :=
  let newfd := env.accept_ret
  if newfd = -1 then st
  else if st.client_socket.length = MAX_CLIENT_SOCKET then st
  else
    { st with client_socket := st.client_socket ++ [newfd],
              sers := st.sers ++ [Serializer.fresh.empty] }

/-- The read loop from index `i` on, `todo` being `client_socket[i..]` (lines 230-248).
The access `sers[i]` outside the vector is a fault, `none`. -/
def recv_loop_from {Msg : Type} (env : Env) :
    Nat → List Int → State Msg → Option (State Msg)
  | _, [], st => some st
  | i, s :: todo, st =>
    if env.read_fds s then
      let r := env.recv i s
      if r.retc ≤ 0 then
        if r.retc = 0 then recv_loop_from env (i + 1) todo st
        else recv_loop_from env (i + 1) todo { st with log := st.log ++ [Event.close s] }
      else
        match st.sers[i]? with
        | none => none
        | some ser =>
          recv_loop_from env (i + 1) todo
            { st with sers := st.sers.set i (ser.add_raw_data r.tmpstorage r.retc.toNat) }
    else recv_loop_from env (i + 1) todo st

/-- The read loop (lines 230-248). -/
def recv_loop {Msg : Type} (env : Env) (st : State Msg) : Option (State Msg) :=
  recv_loop_from env 0 st.client_socket st

/-- The part of an iteration after the drain pass found nothing (lines 203-248): the
readiness wait, the accept branch and the read loop. -/
def poll_phase {Msg : Type} (env : Env) (st : State Msg) : Option (State Msg) :=
  let st1 := { st with log := st.log ++ [Event.select] }
  if env.select_ret = -1 then some st1
  else
    let st2 := if env.read_fds st1.sock then accept_step env st1 else st1
    recv_loop env st2

/-- One iteration of `while(1)` (lines 182-249). -/
def loop_body {Msg : Type} (dec : MsgPrototype Msg) (env : Env) (st : State Msg) :
    Option (State Msg) :=
  if drain_consumed dec st > 0 then some (drain_pass dec st)
  else poll_phase env (drain_pass dec st)

/-- The loop run for as many iterations as there are environments. -/
def run {Msg : Type} (dec : MsgPrototype Msg) : List Env → State Msg → Option (State Msg)
  | [], st => some st
  | env :: envs, st => (loop_body dec env st).bind (run dec envs)

/-- The block as the constructor leaves it, with listening socket `sock`. -/
def init (Msg : Type) (sock : Int) : State Msg :=
  { sock := sock, client_socket := [], sers := [], log := [] }

/-! ## Configuration (lines 124-151) -/

/-- An element of the configuration document: its name and its attributes, in document
order. -/
structure xml_element where
  name : String
  attributes : List (String × String)
deriving DecidableEq

/-- The node handed to `_configure`: the child elements of `params`, in document order. -/
structure xml_node where
  children : List xml_element
deriving DecidableEq

/-- The call `xmlnode.child(name)`: the first child element with that name, if any. -/
def xml_node.child (xmlnode : xml_node) (name : String) : Option xml_element :=
  xmlnode.children.find? (fun e => e.name = name)

/-- The call `node.attribute(name).value()`: the value of the first attribute with that
name, the empty string when there is none. -/
def xml_element.attribute_value (e : xml_element) (name : String) : String :=
  match e.attributes.find? (fun a => a.1 = name) with
  | some a => a.2
  | none => ""

/-- The white space skipped by the C function `atoi`: space, and the characters 9 to 13. -/
def isspace (c : Char) : Bool :=
  c.toNat = 32 || (9 ≤ c.toNat && c.toNat ≤ 13)

/-- The value of the leading decimal digits of `cs`, continuing from `acc`. -/
def digits_value : List Char → Nat → Nat
  | [], acc => acc
  | c :: cs, acc =>
    if 48 ≤ c.toNat ∧ c.toNat ≤ 57 then digits_value cs (acc * 10 + (c.toNat - 48)) else acc

/-- The C function `atoi` on the characters of its argument: white space is skipped, an
optional sign is read, then the leading decimal digits; the text after them is ignored and
a text without leading digits gives 0. -/
def atoi_chars : List Char → Int
  | [] => 0
  | c :: cs =>
    if isspace c then atoi_chars cs
    else if c = '-' then - (digits_value cs 0 : Int)
    else if c = '+' then (digits_value cs 0 : Int)
    else (digits_value (c :: cs) 0 : Int)

/-- The value `strtol` gives for a text whose decimal value is `v`: values outside the
64-bit `long` saturate at `LONG_MIN` and `LONG_MAX`. -/
def clamp_long (v : Int) : Int :=
  if v > 2 ^ 63 - 1 then 2 ^ 63 - 1
  else if v < -(2 ^ 63) then -(2 ^ 63)
  else v

/-- The conversion of a `long` to the 32-bit `int`: the low 32 bits, read in two's
complement. -/
def to_int32 (v : Int) : Int := (v + 2 ^ 31) % 2 ^ 32 - 2 ^ 31

/-- The C library function `atoi`, which returns an `int`: as in glibc with a 64-bit
`long`, it is `(int) strtol(s, NULL, 10)`.  A text whose value fits an `int` gives that
value; beyond, where C leaves the result undefined, the value is the one glibc gives.
`_configure` below takes the conversion as a parameter. -/
def stdlib_atoi (s : String) : Int := to_int32 (clamp_long (atoi_chars s.toList))

/-- The fields set by `_configure`. -/
structure Configured (Proto : Type) where
  port : Int
  msg_prototype : Proto
deriving DecidableEq

/-- The method `_configure` (lines 124-151).  `atoi` is the C library conversion and
`instantiate` is `MessageFactory::instantiate`, which gives no prototype (`none`, a null
pointer) for a message type it does not know.  A thrown `std::runtime_error` is
`Except.error` with its text. -/
def _configure {Proto : Type} (atoi : String → Int) (instantiate : String → Option Proto)
    (xmlnode : xml_node) : Except String (Configured Proto) :=
  match xmlnode.child "collect" with
  | some inspec =>
    let cfgport := inspec.attribute_value "port"
    if cfgport = "" then Except.error "Source specification incomplete"
    else
      let port := atoi cfgport
      if port < 0 ∨ port > 65535 then Except.error "Invalid port"
      else
        let msgtype := inspec.attribute_value "msgtype"
        if msgtype = "" then Except.error "Message type specification incomplete"
        else
          match instantiate msgtype with
          | some msg_prototype => Except.ok ⟨port, msg_prototype⟩
          | none => Except.error (msgtype ++ ": message type not supported")
  | none => Except.error "No collector or file specification"

/-! ## Vocabulary of the properties -/

/-- A frame of the wire format: the payload length as two bytes, most significant first,
then the payload. -/
def frame (payload : List Byte) : List Byte :=
  ⟨payload.length / 256 % 256, Nat.mod_lt _ (by decide)⟩ ::
    ⟨payload.length % 256, Nat.mod_lt _ (by decide)⟩ :: payload

/-- Frames back to back. -/
def stream : List (List Byte) → List Byte
  | [] => []
  | p :: ps => frame p ++ stream ps

/-- The test the drain loop makes before it extracts (lines 187 and 189). -/
def drain_guard (ser : Serializer) : Prop :=
  ser.get_len ≥ 2 ∧ ser.get_len ≥ ser.read_int16

instance (ser : Serializer) : Decidable (drain_guard ser) := by
  unfold drain_guard; infer_instance

/-- The accumulator holds a whole frame: the length field and the declared payload. -/
def frame_buffered (ser : Serializer) : Prop :=
  ser.get_len ≥ 2 + ser.read_int16

instance (ser : Serializer) : Decidable (frame_buffered ser) := by
  unfold frame_buffered; infer_instance

/-- The decoder reads exactly the declared payload of each frame of the stream `ps`:
invoked on the payload of a frame followed by the later frames, it leaves the later
frames in the accumulator. -/
def ReadsExactly {Msg : Type} (dec : MsgPrototype Msg) : List (List Byte) → Prop
  | [] => True
  | p :: ps => (dec.build_same ⟨p ++ stream ps⟩).2 = ⟨stream ps⟩ ∧ ReadsExactly dec ps

/-- The calls made for the frames `ps` of the accumulator at position `i`, extracted one after
the other: for each frame the decoder is invoked on the accumulator positioned on the
payload, and the message built is sent. -/
def extraction_events {Msg : Type} (dec : MsgPrototype Msg) (i : Nat) :
    List (List Byte) → List (Event Msg)
  | [] => []
  | p :: ps =>
    Event.build_same i ⟨p ++ stream ps⟩ ::
      Event.send_record (dec.build_same ⟨p ++ stream ps⟩).1 :: extraction_events dec i ps

/-- The registry is aligned: as many accumulators as socket handles. -/
def aligned {Msg : Type} (st : State Msg) : Prop :=
  st.client_socket.length = st.sers.length

instance {Msg : Type} (st : State Msg) : Decidable (aligned st) := by
  unfold aligned; infer_instance

/-- What the read loop does to the accumulator `ser` at index `j`, whose socket is `s`:
the received bytes are appended when the socket is ready and `recv` returns a positive
count. -/
def recv_effect (env : Env) (j : Nat) (s : Int) (ser : Serializer) : Serializer :=
  if env.read_fds s = true ∧ 0 < (env.recv j s).retc then
    ser.add_raw_data (env.recv j s).tmpstorage (env.recv j s).retc.toNat
  else ser

/-- The calls the read loop makes for index `j`, whose socket is `s`. -/
def recv_calls (Msg : Type) (env : Env) (j : Nat) (s : Int) : List (Event Msg) :=
  if env.read_fds s = true ∧ (env.recv j s).retc < 0 then [Event.close s] else []

/-- The calls of the read loop over `todo`, from index `i` on. -/
def recv_calls_from (Msg : Type) (env : Env) : Nat → List Int → List (Event Msg)
  | _, [] => []
  | i, s :: todo => recv_calls Msg env i s ++ recv_calls_from Msg env (i + 1) todo

/-- A decoder of messages of `n` bytes: it reads the next `n` bytes, or what there is. -/
def fixed_size (n : Nat) : MsgPrototype (List Byte) :=
  ⟨fun ser => (ser.buf.take n, ⟨ser.buf.drop n⟩)⟩

/-- A decoder of self-delimiting messages: the first byte counts the bytes that follow. -/
def length_tagged : MsgPrototype (List Byte) :=
  ⟨fun ser =>
    match ser.buf with
    | [] => ([], ser)
    | n :: rest => (n :: rest.take n.val, ⟨rest.drop n.val⟩)⟩

/-- The bytes of the text hello. -/
def hello : List Byte := [104, 101, 108, 108, 111]

/-- A block listening on socket 3 with one connection, socket 5, whose accumulator holds
`buf`. -/
def single (Msg : Type) (buf : List Byte) : State Msg :=
  { sock := 3, client_socket := [5], sers := [⟨buf⟩], log := [] }

/-- A block listening on socket 3 with two connections, sockets 5 and 6. -/
def pair (Msg : Type) (buf5 buf6 : List Byte) : State Msg :=
  { sock := 3, client_socket := [5, 6], sers := [⟨buf5⟩, ⟨buf6⟩], log := [] }

/-- A block listening on socket 3 with 20 connections, sockets 4 to 23, each accumulator
holding the byte 7. -/
def full_registry (Msg : Type) : State Msg :=
  { sock := 3, client_socket := (List.range 20).map (fun n => (n : Int) + 4),
    sers := List.replicate 20 ⟨[7]⟩, log := [] }

/-- Only socket `s` is ready and its `recv` returns `retc` with `data` in the buffer. -/
def recv_env (s : Int) (retc : Int) (data : List Byte) : Env :=
  { select_ret := 1, read_fds := fun fd => fd == s, accept_ret := -1,
    recv := fun _ _ => ⟨retc, data⟩ }

/-- Only socket `s` is ready and one `recv` delivers `data`. -/
def read_env (s : Int) (data : List Byte) : Env := recv_env s data.length data

/-- Only the listening socket `sock` is ready and `accept` returns `newfd`. -/
def accept_env (sock newfd : Int) : Env :=
  { select_ret := 1, read_fds := fun fd => fd == sock, accept_ret := newfd,
    recv := fun _ _ => ⟨0, []⟩ }

/-- A known message type, "Message", for the examples of `_configure`. -/
def example_factory (msgtype : String) : Option String :=
  if msgtype = "Message" then some "Message" else none

/-- The configuration `collect port=... msgtype=Message`. -/
def collect_config (port : String) : xml_node :=
  ⟨[⟨"collect", [("port", port), ("msgtype", "Message")]⟩]⟩

/-! ## Lemmas on the drain loop -/

theorem read_int16_frame (p rest : List Byte) (hp : p.length < 65536) :
    (Serializer.mk (frame p ++ rest)).read_int16 = p.length := by
  simp only [frame, Serializer.read_int16, List.cons_append]
  omega

theorem get_len_frame (p rest : List Byte) :
    (Serializer.mk (frame p ++ rest)).get_len = 2 + p.length + rest.length := by
  simp [frame, Serializer.get_len]; omega

theorem drain_one_of_guard {Msg : Type} (dec : MsgPrototype Msg) (i : Nat) (ser : Serializer)
    (h : drain_guard ser) :
    drain_one dec i ser =
      ((dec.build_same (ser.consume 2)).2,
        [Event.build_same i (ser.consume 2),
         Event.send_record (dec.build_same (ser.consume 2)).1], true) := by
  obtain ⟨h1, h2⟩ := h
  simp [drain_one, h1, h2, Serializer.next]

theorem drain_one_of_not_guard {Msg : Type} (dec : MsgPrototype Msg) (i : Nat)
    (ser : Serializer) (h : ¬ drain_guard ser) :
    drain_one dec i ser = (ser, [], false) := by
  unfold drain_guard at h
  unfold drain_one
  by_cases h1 : ser.get_len ≥ 2
  · have h2 : ¬ ser.get_len ≥ ser.read_int16 := fun h2 => h ⟨h1, h2⟩
    simp [h1, h2]
  · simp [h1]

theorem drain_one_frame {Msg : Type} (dec : MsgPrototype Msg) (i : Nat) (p rest : List Byte)
    (hp : p.length < 65536) :
    drain_one dec i ⟨frame p ++ rest⟩ =
      ((dec.build_same ⟨p ++ rest⟩).2,
        [Event.build_same i ⟨p ++ rest⟩, Event.send_record (dec.build_same ⟨p ++ rest⟩).1],
        true) := by
  have hg : drain_guard ⟨frame p ++ rest⟩ := by
    unfold drain_guard
    rw [read_int16_frame p rest hp, get_len_frame]
    omega
  rw [drain_one_of_guard dec i _ hg]
  simp [Serializer.consume, frame]

theorem frame_buffered_guard (ser : Serializer) (h : frame_buffered ser) : drain_guard ser := by
  unfold frame_buffered at h; unfold drain_guard; omega

theorem drain_sers_quiet {Msg : Type} (dec : MsgPrototype Msg) (l : List Serializer) :
    ∀ i, (∀ ser ∈ l, ¬ drain_guard ser) → drain_sers dec i l = (l, [], 0) := by
  induction l with
  | nil => intro i _; rfl
  | cons ser rest ih =>
    intro i h
    have h1 := drain_one_of_not_guard dec i ser (h ser (List.mem_cons_self _ _))
    have h2 := ih (i + 1) (fun s hs => h s (List.mem_cons_of_mem _ hs))
    simp [drain_sers, h1, h2]

theorem drain_sers_consumed_zero {Msg : Type} (dec : MsgPrototype Msg) (l : List Serializer) :
    ∀ i, (drain_sers dec i l).2.2 = 0 → ∀ ser ∈ l, ¬ drain_guard ser := by
  induction l with
  | nil => intro i _ ser hser; simp at hser
  | cons a rest ih =>
    intro i h ser hser
    by_cases hg : drain_guard a
    · simp [drain_sers, drain_one_of_guard dec i a hg] at h
    · simp [drain_sers, drain_one_of_not_guard dec i a hg] at h
      rcases List.mem_cons.mp hser with rfl | hmem
      · exact hg
      · exact ih (i + 1) h ser hmem

theorem drain_sers_append {Msg : Type} (dec : MsgPrototype Msg) (l1 l2 : List Serializer) :
    ∀ i, drain_sers dec i (l1 ++ l2) =
      ((drain_sers dec i l1).1 ++ (drain_sers dec (i + l1.length) l2).1,
       (drain_sers dec i l1).2.1 ++ (drain_sers dec (i + l1.length) l2).2.1,
       if (drain_sers dec i l1).2.2 = 0 then (drain_sers dec (i + l1.length) l2).2.2
       else (drain_sers dec i l1).2.2) := by
  induction l1 with
  | nil => intro i; simp [drain_sers]
  | cons a rest ih =>
    intro i
    have e : i + (a :: rest).length = i + 1 + rest.length := by simp; omega
    have h1 : drain_sers dec i (a :: rest ++ l2) =
        ((drain_one dec i a).1 :: (drain_sers dec (i + 1) (rest ++ l2)).1,
         (drain_one dec i a).2.1 ++ (drain_sers dec (i + 1) (rest ++ l2)).2.1,
         if (drain_one dec i a).2.2 then 1 else (drain_sers dec (i + 1) (rest ++ l2)).2.2) := rfl
    have h2 : drain_sers dec i (a :: rest) =
        ((drain_one dec i a).1 :: (drain_sers dec (i + 1) rest).1,
         (drain_one dec i a).2.1 ++ (drain_sers dec (i + 1) rest).2.1,
         if (drain_one dec i a).2.2 then 1 else (drain_sers dec (i + 1) rest).2.2) := rfl
    rw [h1, h2, ih (i + 1), e]
    by_cases hc : (drain_one dec i a).2.2 = true
    · simp [hc]
    · simp [hc]


theorem drain_sers_focus {Msg : Type} (dec : MsgPrototype Msg) (pre post : List Serializer)
    (ser : Serializer) (hpre : ∀ s ∈ pre, ¬ drain_guard s) (hpost : ∀ s ∈ post, ¬ drain_guard s) :
    drain_sers dec 0 (pre ++ ser :: post) =
      (pre ++ (drain_one dec pre.length ser).1 :: post,
       (drain_one dec pre.length ser).2.1,
       if (drain_one dec pre.length ser).2.2 then 1 else 0) := by
  rw [drain_sers_append, drain_sers_quiet dec pre 0 hpre]
  have h2 : drain_sers dec (0 + pre.length) (ser :: post) =
      ((drain_one dec (0 + pre.length) ser).1 :: (drain_sers dec (0 + pre.length + 1) post).1,
       (drain_one dec (0 + pre.length) ser).2.1 ++ (drain_sers dec (0 + pre.length + 1) post).2.1,
       if (drain_one dec (0 + pre.length) ser).2.2 then 1
       else (drain_sers dec (0 + pre.length + 1) post).2.2) := rfl
  rw [h2, drain_sers_quiet dec post _ hpost]
  simp

theorem not_guard_nil : ¬ drain_guard ⟨[]⟩ := by
  simp [drain_guard, Serializer.get_len]

theorem run_frames {Msg : Type} (dec : MsgPrototype Msg) (sock : Int) (cs : List Int)
    (pre post : List Serializer) (hpre : ∀ s ∈ pre, ¬ drain_guard s)
    (hpost : ∀ s ∈ post, ¬ drain_guard s) :
    ∀ (ps : List (List Byte)), (∀ p ∈ ps, p.length < 65536) → ReadsExactly dec ps →
    ∀ (log : List (Event Msg)) (envs : List Env), envs.length = ps.length →
      run dec envs ⟨sock, cs, pre ++ ⟨stream ps⟩ :: post, log⟩ =
        some ⟨sock, cs, pre ++ ⟨[]⟩ :: post, log ++ extraction_events dec pre.length ps⟩ := by
  intro ps
  induction ps with
  | nil =>
    intro _ _ log envs hlen
    have : envs = [] := List.length_eq_zero.mp hlen
    subst this
    simp [run, stream, extraction_events]
  | cons p ps ih =>
    intro hwf hdec log envs hlen
    cases envs with
    | nil => simp at hlen
    | cons env envs =>
      have hp : p.length < 65536 := hwf p (List.mem_cons_self _ _)
      have hstep : loop_body dec env ⟨sock, cs, pre ++ ⟨stream (p :: ps)⟩ :: post, log⟩ =
          some ⟨sock, cs, pre ++ ⟨stream ps⟩ :: post,
            log ++ [Event.build_same pre.length ⟨p ++ stream ps⟩,
                    Event.send_record (dec.build_same ⟨p ++ stream ps⟩).1]⟩ := by
        simp only [loop_body, drain_consumed, drain_pass, stream]
        rw [drain_sers_focus dec pre post _ hpre hpost, drain_one_frame dec _ p _ hp, hdec.1]
        simp
      simp only [run, hstep, Option.bind]
      rw [ih (fun q hq => hwf q (List.mem_cons_of_mem _ hq)) hdec.2 _ envs
        (by simpa using hlen)]
      simp [extraction_events]

theorem drain_consumed_quiet {Msg : Type} (dec : MsgPrototype Msg) (st : State Msg)
    (h : ∀ s ∈ st.sers, ¬ drain_guard s) : drain_consumed dec st = 0 ∧ drain_pass dec st = st := by
  simp [drain_consumed, drain_pass, drain_sers_quiet dec st.sers 0 h]

/-! ## Lemmas on the read loop and on the registry -/

theorem recv_loop_from_cons {Msg : Type} (env : Env) (i : Nat) (s : Int) (todo : List Int)
    (st : State Msg) (ser : Serializer) (h : st.sers[i]? = some ser) :
    recv_loop_from env i (s :: todo) st =
      recv_loop_from env (i + 1) todo
        { st with sers := st.sers.set i (recv_effect env i s ser),
                  log := st.log ++ recv_calls Msg env i s } := by
  have hset : st.sers.set i ser = st.sers := by
    apply List.ext_getElem?
    intro j
    by_cases hj : i = j
    · subst hj
      rw [List.getElem?_set, h]
      have hi : i < st.sers.length := (List.getElem?_eq_some.mp h).1
      simp [hi]
    · rw [List.getElem?_set_ne hj]
  by_cases hr : env.read_fds s = true
  · by_cases h0 : (env.recv i s).retc ≤ 0
    · by_cases hz : (env.recv i s).retc = 0
      · have : ¬ (0 < (env.recv i s).retc) := by omega
        have hn : ¬ ((env.recv i s).retc < 0) := by omega
        simp [recv_loop_from, hr, hz, recv_effect, recv_calls, hset]
      · have hneg : (env.recv i s).retc < 0 := by omega
        have : ¬ (0 < (env.recv i s).retc) := by omega
        simp [recv_loop_from, hr, h0, hz, recv_effect, recv_calls, hset, hneg, this]
    · have hpos : 0 < (env.recv i s).retc := by omega
      have hn : ¬ ((env.recv i s).retc < 0) := by omega
      simp [recv_loop_from, hr, h0, recv_effect, recv_calls, h, hpos, hn]
  · simp [recv_loop_from, hr, recv_effect, recv_calls, hset]

theorem recv_loop_from_spec {Msg : Type} (env : Env) :
    ∀ (todo : List Int) (i : Nat) (st : State Msg), i + todo.length ≤ st.sers.length →
      ∃ st', recv_loop_from env i todo st = some st' ∧ st'.sock = st.sock ∧
        st'.client_socket = st.client_socket ∧
        st'.log = st.log ++ recv_calls_from Msg env i todo ∧
        st'.sers.length = st.sers.length ∧
        (∀ j, j < i → st'.sers[j]? = st.sers[j]?) ∧
        (∀ j, i + todo.length ≤ j → st'.sers[j]? = st.sers[j]?) ∧
        (∀ k s, todo[k]? = some s →
          st'.sers[i + k]? = (st.sers[i + k]?).map (recv_effect env (i + k) s)) := by
  intro todo
  induction todo with
  | nil =>
    intro i st _
    refine ⟨st, rfl, rfl, rfl, by simp [recv_calls_from], rfl, fun _ _ => rfl, fun _ _ => rfl, ?_⟩
    intro k s h
    simp at h
  | cons s todo ih =>
    intro i st hlen
    have hi : i < st.sers.length := by simp at hlen; omega
    have hget : st.sers[i]? = some st.sers[i] := List.getElem?_eq_getElem hi
    rw [recv_loop_from_cons env i s todo st _ hget]
    obtain ⟨st', hrun, hsock, hcs, hlog, hl, hlt, hge, hk⟩ :=
      ih (i + 1) { st with sers := st.sers.set i (recv_effect env i s st.sers[i]),
                           log := st.log ++ recv_calls Msg env i s }
        (by simp at hlen ⊢; omega)
    refine ⟨st', hrun, hsock, hcs, ?_, ?_, ?_, ?_, ?_⟩
    · simp [hlog, recv_calls_from]
    · simpa using hl
    · intro j hj
      rw [hlt j (by omega)]
      simp only
      rw [List.getElem?_set_ne (by omega)]
    · intro j hj
      simp at hj
      rw [hge j (by omega)]
      simp only
      rw [List.getElem?_set_ne (by omega)]
    · intro k s' hks
      cases k with
      | zero =>
        simp at hks
        subst hks
        simp only [Nat.add_zero]
        rw [hlt i (by omega)]
        simp [hget, hi]
      | succ k =>
        simp at hks
        have := hk k s' hks
        have e : i + (k + 1) = i + 1 + k := by omega
        rw [e, this]
        simp only
        rw [List.getElem?_set_ne (by omega)]

theorem drain_sers_length {Msg : Type} (dec : MsgPrototype Msg) (l : List Serializer) :
    ∀ i, (drain_sers dec i l).1.length = l.length := by
  induction l with
  | nil => intro i; rfl
  | cons a rest ih => intro i; simp [drain_sers, ih (i + 1)]

theorem accept_step_spec {Msg : Type} (env : Env) (st : State Msg) :
    (accept_step env st).sock = st.sock ∧ (accept_step env st).log = st.log ∧
    ∃ added : List Int, added.length ≤ 1 ∧
      (accept_step env st).client_socket = st.client_socket ++ added ∧
      (accept_step env st).sers = st.sers ++ added.map (fun _ => Serializer.mk []) ∧
      (st.client_socket.length = MAX_CLIENT_SOCKET → added = []) := by
  by_cases h1 : env.accept_ret = -1
  · have e : accept_step env st = st := by simp [accept_step, h1]
    rw [e]
    exact ⟨rfl, rfl, [], by simp, by simp, by simp, fun _ => rfl⟩
  · by_cases h2 : st.client_socket.length = MAX_CLIENT_SOCKET
    · have e : accept_step env st = st := by simp [accept_step, h2]
      rw [e]
      exact ⟨rfl, rfl, [], by simp, by simp, by simp, fun _ => rfl⟩
    · have e : accept_step env st =
          { st with client_socket := st.client_socket ++ [env.accept_ret],
                    sers := st.sers ++ [Serializer.mk []] } := by
        simp [accept_step, h1, h2, Serializer.empty]
      rw [e]
      exact ⟨rfl, rfl, [env.accept_ret], by simp, rfl, rfl, fun h => absurd h h2⟩

theorem recv_loop_spec {Msg : Type} (env : Env) (st : State Msg) (h : aligned st) :
    ∃ st', recv_loop env st = some st' ∧ st'.sock = st.sock ∧
      st'.client_socket = st.client_socket ∧
      st'.log = st.log ++ recv_calls_from Msg env 0 st.client_socket ∧
      st'.sers.length = st.sers.length ∧
      (∀ j s, st.client_socket[j]? = some s →
        st'.sers[j]? = (st.sers[j]?).map (recv_effect env j s)) := by
  obtain ⟨st', h1, h2, h3, h4, h5, _, _, h8⟩ :=
    recv_loop_from_spec env st.client_socket 0 st (by unfold aligned at h; omega)
  refine ⟨st', h1, h2, h3, h4, h5, ?_⟩
  intro j s hj
  simpa using h8 j s hj

theorem loop_body_spec {Msg : Type} (dec : MsgPrototype Msg) (env : Env) (st : State Msg)
    (h : aligned st) :
    ∃ st', loop_body dec env st = some st' ∧ st'.sock = st.sock ∧ aligned st' ∧
      ∃ added : List Int, added.length ≤ 1 ∧
        st'.client_socket = st.client_socket ++ added ∧
        st'.sers.length = st.sers.length + added.length ∧
        (st.client_socket.length = MAX_CLIENT_SOCKET → added = []) := by
  unfold aligned at h
  have hd : aligned (drain_pass dec st) := by
    simp [aligned, drain_pass, drain_sers_length, h]
  unfold loop_body
  by_cases hc : drain_consumed dec st > 0
  · simp only [hc, if_true]
    exact ⟨_, rfl, rfl, hd, [], by simp, by simp [drain_pass],
      by simp [drain_pass, drain_sers_length], fun _ => rfl⟩
  · simp only [hc, if_false]
    unfold poll_phase
    by_cases hs : env.select_ret = -1
    · simp only [hs, if_true]
      exact ⟨_, rfl, rfl, hd, [], by simp, by simp [drain_pass],
        by simp [drain_pass, drain_sers_length], fun _ => rfl⟩
    · simp only [hs, if_false]
      by_cases hr : env.read_fds st.sock = true
      · obtain ⟨hsock, _, added, ha1, ha2, ha3, ha4⟩ :=
          accept_step_spec env
            { drain_pass dec st with log := (drain_pass dec st).log ++ [Event.select] }
        obtain ⟨st', r1, r2, r3, _, r5, _⟩ :=
          recv_loop_spec env (accept_step env
            { drain_pass dec st with log := (drain_pass dec st).log ++ [Event.select] })
            (by
              unfold aligned
              rw [ha2, ha3]
              simp [drain_pass, drain_sers_length, h])
        refine ⟨st', ?_, ?_, ?_, added, ha1, ?_, ?_, ?_⟩
        · simpa [drain_pass, hr] using r1
        · rw [r2, hsock]; rfl
        · unfold aligned
          rw [r3, r5, ha2, ha3]
          simp [drain_pass, drain_sers_length, h]
        · rw [r3, ha2]; rfl
        · rw [r5, ha3]
          simp [drain_pass, drain_sers_length]
        · intro hfull
          exact ha4 (by simpa [drain_pass] using hfull)
      · obtain ⟨st', r1, r2, r3, _, r5, _⟩ :=
          recv_loop_spec env
            { drain_pass dec st with log := (drain_pass dec st).log ++ [Event.select] }
            (by simpa [aligned] using hd)
        refine ⟨st', ?_, ?_, ?_, [], by simp, ?_, ?_, fun _ => rfl⟩
        · simpa [drain_pass, hr] using r1
        · rw [r2]; rfl
        · unfold aligned
          rw [r3, r5]
          simpa [aligned] using hd
        · rw [r3]; simp [drain_pass]
        · rw [r5]
          simp [drain_pass, drain_sers_length]

theorem run_spec {Msg : Type} (dec : MsgPrototype Msg) :
    ∀ (envs : List Env) (st : State Msg), aligned st →
      st.client_socket.length ≤ MAX_CLIENT_SOCKET →
      ∃ st', run dec envs st = some st' ∧ st'.sock = st.sock ∧ aligned st' ∧
        st'.client_socket.length ≤ MAX_CLIENT_SOCKET ∧
        (∃ added : List Int, st'.client_socket = st.client_socket ++ added) ∧
        st.sers.length ≤ st'.sers.length := by
  intro envs
  induction envs with
  | nil =>
    intro st h1 h2
    exact ⟨st, rfl, rfl, h1, h2, ⟨[], by simp⟩, Nat.le_refl _⟩
  | cons env envs ih =>
    intro st h1 h2
    obtain ⟨st1, e1, s1, a1, added, l1, c1, n1, f1⟩ := loop_body_spec dec env st h1
    have hle : st1.client_socket.length ≤ MAX_CLIENT_SOCKET := by
      by_cases hfull : st.client_socket.length = MAX_CLIENT_SOCKET
      · rw [c1, f1 hfull]; simpa using h2
      · rw [c1, List.length_append]; omega
    obtain ⟨st2, e2, s2, a2, le2, ⟨added2, c2⟩, n2⟩ := ih st1 a1 hle
    refine ⟨st2, ?_, ?_, a2, le2, ⟨added ++ added2, ?_⟩, ?_⟩
    · simp [run, e1, e2]
    · rw [s2, s1]
    · rw [c2, c1, List.append_assoc]
    · omega

theorem drain_sers_no_select {Msg : Type} (dec : MsgPrototype Msg) (l : List Serializer) :
    ∀ i, Event.select ∉ (drain_sers dec i l).2.1 := by
  induction l with
  | nil => intro i; simp [drain_sers]
  | cons a rest ih =>
    intro i
    by_cases hg : drain_guard a
    · simp [drain_sers, drain_one_of_guard dec i a hg, ih (i + 1)]
    · simp [drain_sers, drain_one_of_not_guard dec i a hg, ih (i + 1)]

theorem drain_sers_consumed_pos {Msg : Type} (dec : MsgPrototype Msg) (l : List Serializer) :
    ∀ i, (drain_sers dec i l).2.2 > 0 ↔ ∃ ser ∈ l, drain_guard ser := by
  intro i
  constructor
  · intro h
    by_contra hne
    have hq : ∀ ser ∈ l, ¬ drain_guard ser := fun ser hs hg => hne ⟨ser, hs, hg⟩
    rw [drain_sers_quiet dec l i hq] at h
    simp at h
  · rintro ⟨ser, hs, hg⟩
    rcases Nat.eq_zero_or_pos (drain_sers dec i l).2.2 with h0 | hpos
    · exact absurd hg (drain_sers_consumed_zero dec l i h0 ser hs)
    · exact hpos

theorem close_mem_recv_calls_from (Msg : Type) (env : Env) :
    ∀ (todo : List Int) (i k : Nat) (s : Int), todo[k]? = some s → env.read_fds s = true →
      (env.recv (i + k) s).retc < 0 →
      (Event.close s : Event Msg) ∈ recv_calls_from Msg env i todo := by
  intro todo
  induction todo with
  | nil => intro i k s h; simp at h
  | cons a todo ih =>
    intro i k s h hr hneg
    cases k with
    | zero =>
      simp at h
      subst h
      simp only [Nat.add_zero] at hneg
      simp [recv_calls_from, recv_calls, hr, hneg]
    | succ k =>
      simp at h
      have e : i + (k + 1) = i + 1 + k := by omega
      rw [e] at hneg
      have := ih (i + 1) k s h hr hneg
      simp [recv_calls_from, this]

theorem run_append {Msg : Type} (dec : MsgPrototype Msg) :
    ∀ (envs1 envs2 : List Env) (st : State Msg),
      run dec (envs1 ++ envs2) st = (run dec envs1 st).bind (run dec envs2) := by
  intro envs1
  induction envs1 with
  | nil => intro envs2 st; simp [run]
  | cons env envs1 ih =>
    intro envs2 st
    cases h : loop_body dec env st with
    | none => simp [run, h]
    | some st1 => simp [run, h, ih envs2 st1]

theorem loop_body_read {Msg : Type} (dec : MsgPrototype Msg) (sock s : Int)
    (log : List (Event Msg)) (data : List Byte) (hs : s ≠ sock) (hdata : data ≠ []) :
    loop_body dec (read_env s data) ⟨sock, [s], [⟨[]⟩], log⟩ =
      some ⟨sock, [s], [⟨data⟩], log ++ [Event.select]⟩ := by
  have hq : ∀ x ∈ ([⟨[]⟩] : List Serializer), ¬ drain_guard x := by
    intro x hx
    simp at hx
    subst hx
    exact not_guard_nil
  obtain ⟨h0, hp⟩ := drain_consumed_quiet dec ⟨sock, [s], [⟨[]⟩], log⟩ hq
  have hlen : ¬ ((data.length : Int) ≤ 0) := by
    have : 0 < data.length := List.length_pos.mpr hdata
    omega
  have hsock : ¬ (sock = s) := fun h => hs h.symm
  simp [loop_body, h0, hp, poll_phase, read_env, recv_env, recv_loop, recv_loop_from, hsock,
    hlen, Serializer.add_raw_data]

theorem drain_sers_getElem {Msg : Type} (dec : MsgPrototype Msg) (l : List Serializer) :
    ∀ i j, (drain_sers dec i l).1[j]? = (l[j]?).map (fun ser => (drain_one dec (i + j) ser).1) := by
  induction l with
  | nil => intro i j; simp [drain_sers]
  | cons a rest ih =>
    intro i j
    cases j with
    | zero => simp [drain_sers]
    | succ j =>
      have e : i + (j + 1) = i + 1 + j := by omega
      simp [drain_sers, ih (i + 1) j, e]

/-! ## Lemmas on the calls made for one accumulator -/

/-- C1: the frame extraction threshold fails on the code.  An accumulator that holds only
the length field 00 01 (declared length 1, no payload byte, so 2 bytes where a frame needs 3)
passes the test of the drain loop: the pass sets `consumed`, consumes the length field,
invokes the decoder on the empty accumulator and sends the message it returns.  In
general the loop extracts from an accumulator exactly when it holds at least 2 bytes and at
least as many bytes as the declared length. -/
theorem C1_length_field_alone_is_extracted {Msg : Type} (dec : MsgPrototype Msg)
    (sock s : Int) (log : List (Event Msg)) :
    (Serializer.mk [0, 1]).get_len = 2 ∧ (Serializer.mk [0, 1]).read_int16 = 1 ∧
    ¬ frame_buffered ⟨[0, 1]⟩ ∧
    drain_consumed dec ⟨sock, [s], [⟨[0, 1]⟩], log⟩ = 1 ∧
    drain_pass dec ⟨sock, [s], [⟨[0, 1]⟩], log⟩ =
      ⟨sock, [s], [(dec.build_same ⟨[]⟩).2],
        log ++ [Event.build_same 0 ⟨[]⟩, Event.send_record (dec.build_same ⟨[]⟩).1]⟩ ∧
    (∀ (i : Nat) (ser : Serializer),
      (drain_one dec i ser).2.2 = true ↔ (ser.get_len ≥ 2 ∧ ser.get_len ≥ ser.read_int16)) := by
  refine ⟨rfl, rfl, by decide, rfl, rfl, ?_⟩
  intro i ser
  by_cases hg : drain_guard ser
  · rw [drain_one_of_guard dec i ser hg]
    exact ⟨fun _ => hg, fun _ => rfl⟩
  · rw [drain_one_of_not_guard dec i ser hg]
    exact ⟨fun h => (by cases h), fun h => absurd h hg⟩

/-- C2: the decoder input guarantee fails on the code.  For the buffered bytes
00 05 h e l l o the decoder is invoked once, positioned on the 5 payload bytes; but for the
buffered bytes 00 05 h e l (declared length 5, 3 payload bytes) the decoder is invoked
too, on an accumulator that holds 3 unread bytes. -/
theorem C2_decoder_invoked_on_short_payload {Msg : Type} (dec : MsgPrototype Msg)
    (sock s : Int) (log : List (Event Msg)) :
    drain_pass dec ⟨sock, [s], [⟨frame hello⟩], log⟩ =
      ⟨sock, [s], [(dec.build_same ⟨hello⟩).2],
        log ++ [Event.build_same 0 ⟨hello⟩, Event.send_record (dec.build_same ⟨hello⟩).1]⟩ ∧
    (Serializer.mk [0, 5, 104, 101, 108]).read_int16 = 5 ∧
    (Serializer.mk [104, 101, 108]).get_len = 3 ∧
    drain_pass dec ⟨sock, [s], [⟨[0, 5, 104, 101, 108]⟩], log⟩ =
      ⟨sock, [s], [(dec.build_same ⟨[104, 101, 108]⟩).2],
        log ++ [Event.build_same 0 ⟨[104, 101, 108]⟩,
                Event.send_record (dec.build_same ⟨[104, 101, 108]⟩).1]⟩ :=
  ⟨rfl, rfl, rfl, rfl⟩

/-- C3: split invariance fails on the code.  The frame 00 05 h e l l o delivered whole
has the decoder invoked on the 5 payload bytes; delivered in two reads, the first of
5 bytes, the drain pass that follows the first read already invokes the decoder, on the
3 bytes h e l, and sends the message built from them, whatever the decoder.  With the
decoder of 5-byte messages the split delivery sends the message h e l and leaves the
bytes l o in the accumulator. -/
theorem C3_split_after_five_bytes {Msg : Type} (dec : MsgPrototype Msg) (env : Env) :
    frame hello = [0, 5, 104, 101, 108, 108, 111] ∧
    run dec [read_env 5 (frame hello), env] (single Msg []) =
      some ⟨3, [5], [(dec.build_same ⟨hello⟩).2],
        [Event.select, Event.build_same 0 ⟨hello⟩,
         Event.send_record (dec.build_same ⟨hello⟩).1]⟩ ∧
    run dec [read_env 5 ((frame hello).take 5), env] (single Msg []) =
      some ⟨3, [5], [(dec.build_same ⟨[104, 101, 108]⟩).2],
        [Event.select, Event.build_same 0 ⟨[104, 101, 108]⟩,
         Event.send_record (dec.build_same ⟨[104, 101, 108]⟩).1]⟩ ∧
    run (fixed_size 5) [read_env 5 (frame hello), env] (single (List Byte) []) =
      some ⟨3, [5], [⟨[]⟩],
        [Event.select, Event.build_same 0 ⟨hello⟩, Event.send_record hello]⟩ ∧
    run (fixed_size 5)
        [read_env 5 ((frame hello).take 5), env, read_env 5 ((frame hello).drop 5)]
        (single (List Byte) []) =
      some ⟨3, [5], [⟨[108, 111]⟩],
        [Event.select, Event.build_same 0 ⟨[104, 101, 108]⟩,
         Event.send_record [104, 101, 108], Event.select]⟩ :=
  ⟨rfl, rfl, rfl, rfl, rfl⟩

/-- The read phase on a ready connection whose `recv` returns 0 or a negative value: no byte
is appended to its accumulator, `client_socket` is unchanged and `sers` keeps its length; a
negative return calls `close`; every other accumulator changes only by what its own
`recv` delivers. -/
theorem recv_loop_failed_read {Msg : Type} (env : Env) (st : State Msg)
    (halign : aligned st) (i : Nat) (s : Int) (hs : st.client_socket[i]? = some s)
    (hready : env.read_fds s = true) (hret : (env.recv i s).retc ≤ 0) :
    ∃ st', recv_loop env st = some st' ∧
      st'.client_socket = st.client_socket ∧ st'.sers.length = st.sers.length ∧
      st'.sers[i]? = st.sers[i]? ∧
      ((env.recv i s).retc < 0 → Event.close s ∈ st'.log) ∧
      (∀ j t, j ≠ i → st.client_socket[j]? = some t →
        st'.sers[j]? = (st.sers[j]?).map (recv_effect env j t)) := by
  obtain ⟨st', h1, _, h3, h4, h5, h6⟩ := recv_loop_spec env st halign
  refine ⟨st', h1, h3, h5, ?_, ?_, fun j t _ hj => h6 j t hj⟩
  · rw [h6 i s hs]
    have hnot : ¬ (0 < (env.recv i s).retc) := by omega
    have hfun : recv_effect env i s = id := by
      funext ser
      simp [recv_effect, hnot]
    rw [hfun]
    simp
  · intro hneg
    rw [h4]
    have := close_mem_recv_calls_from Msg env st.client_socket 0 i s hs hready
      (by simpa using hneg)
    exact List.mem_append_right _ this

/-- C4: connection termination fails on the code.  From the empty registry a client is
accepted on socket 5 and sends 00 05 and 2 payload bytes (an incomplete frame, which the
drain loop leaves alone).  When the next `recv` on socket 5 returns 0, the iteration ends
with socket 5 and its accumulator still registered and no `close`; when it returns -1,
`close(5)` is called and socket 5 and its accumulator are still registered.  In the
scenario of the claim, 00 04 and 2 payload bytes, the drain pass that follows the read
invokes the decoder on the 2 payload bytes and sends a message, whatever comes next. -/
theorem C4_failed_read_stays_registered {Msg : Type} (dec : MsgPrototype Msg) (env : Env) :
    run dec [accept_env 3 5, read_env 5 [0, 5, 1, 2], recv_env 5 0 []] (init Msg 3) =
      some ⟨3, [5], [⟨[0, 5, 1, 2]⟩], [Event.select, Event.select, Event.select]⟩ ∧
    run dec [accept_env 3 5, read_env 5 [0, 5, 1, 2], recv_env 5 (-1) []] (init Msg 3) =
      some ⟨3, [5], [⟨[0, 5, 1, 2]⟩],
        [Event.select, Event.select, Event.select, Event.close 5]⟩ ∧
    run dec [accept_env 3 5, read_env 5 [0, 4, 1, 2], env] (init Msg 3) =
      some ⟨3, [5], [(dec.build_same ⟨[1, 2]⟩).2],
        [Event.select, Event.select, Event.build_same 0 ⟨[1, 2]⟩,
         Event.send_record (dec.build_same ⟨[1, 2]⟩).1]⟩ :=
  ⟨rfl, rfl, rfl⟩

/-- C5: drain before poll.  In an iteration of the loop, a drain pass that extracted
something (exactly when some accumulator passed the test of the drain loop) ends the
iteration without `select`; control reaches `select` only after a pass that extracted
nothing, and then no accumulator passes the test, none holds a whole frame, and the pass
changed nothing.  When one read delivers three complete frames to a connection whose
accumulator was empty, and the decoder reads exactly the declared payloads, the three
messages are sent in the three iterations that follow the read, none of which reaches
`select`, and the next iteration goes to `select` with the accumulator empty. -/
theorem C5_drain_before_poll {Msg : Type} (dec : MsgPrototype Msg) :
    (∀ (env : Env) (st : State Msg),
      (drain_consumed dec st > 0 ↔ ∃ ser ∈ st.sers, drain_guard ser) ∧
      (drain_consumed dec st > 0 →
        loop_body dec env st = some (drain_pass dec st) ∧
        Event.select ∉ (drain_sers dec 0 st.sers).2.1) ∧
      (¬ drain_consumed dec st > 0 →
        loop_body dec env st = poll_phase env st ∧ drain_pass dec st = st ∧
        ∀ ser ∈ st.sers, ¬ drain_guard ser ∧ ¬ frame_buffered ser)) ∧
    (∀ (sock s : Int) (log : List (Event Msg)) (p1 p2 p3 : List Byte) (e2 e3 e4 e5 : Env),
      s ≠ sock → p1.length < 65536 → p2.length < 65536 → p3.length < 65536 →
      ReadsExactly dec [p1, p2, p3] →
      run dec [read_env s (stream [p1, p2, p3]), e2, e3, e4] ⟨sock, [s], [⟨[]⟩], log⟩ =
        some ⟨sock, [s], [⟨[]⟩],
          log ++ Event.select :: extraction_events dec 0 [p1, p2, p3]⟩ ∧
      loop_body dec e5
          ⟨sock, [s], [⟨[]⟩], log ++ Event.select :: extraction_events dec 0 [p1, p2, p3]⟩ =
        poll_phase e5
          ⟨sock, [s], [⟨[]⟩], log ++ Event.select :: extraction_events dec 0 [p1, p2, p3]⟩) := by
  refine ⟨fun env st => ⟨drain_sers_consumed_pos dec st.sers 0, ?_, ?_⟩, ?_⟩
  · intro h
    refine ⟨?_, drain_sers_no_select dec st.sers 0⟩
    simp [loop_body, h]
  · intro h
    have h0 : drain_consumed dec st = 0 := by omega
    have hq : ∀ ser ∈ st.sers, ¬ drain_guard ser :=
      drain_sers_consumed_zero dec st.sers 0 h0
    have hp := (drain_consumed_quiet dec st hq).2
    refine ⟨?_, hp, fun ser hser => ⟨hq ser hser, fun hb => hq ser hser (frame_buffered_guard ser hb)⟩⟩
    simp [loop_body, h0, hp]
  · intro sock s log p1 p2 p3 e2 e3 e4 e5 hs h1 h2 h3 hdec
    have hwf : ∀ p ∈ [p1, p2, p3], p.length < 65536 := by
      intro p hp
      simp at hp
      rcases hp with rfl | rfl | rfl <;> assumption
    have hdata : stream [p1, p2, p3] ≠ [] := by simp [stream, frame]
    have hq : ∀ x ∈ ([] : List Serializer), ¬ drain_guard x := by intro x hx; simp at hx
    have hrun := run_frames dec sock [s] [] [] hq hq [p1, p2, p3] hwf hdec
      (log ++ [Event.select]) [e2, e3, e4] rfl
    constructor
    · have e : run dec [read_env s (stream [p1, p2, p3]), e2, e3, e4] ⟨sock, [s], [⟨[]⟩], log⟩ =
          run dec [e2, e3, e4] ⟨sock, [s], [⟨stream [p1, p2, p3]⟩], log ++ [Event.select]⟩ := by
        show (loop_body dec _ _).bind _ = _
        rw [loop_body_read dec sock s log _ hs hdata]
        rfl
      rw [e]
      simpa using hrun
    · have hq1 : ∀ x ∈ (⟨sock, [s], [⟨[]⟩],
          log ++ Event.select :: extraction_events dec 0 [p1, p2, p3]⟩ : State Msg).sers,
          ¬ drain_guard x := by
        intro x hx
        simp at hx
        subst hx
        exact not_guard_nil
      obtain ⟨h0, hp⟩ := drain_consumed_quiet dec _ hq1
      simp [loop_body, h0, hp]

/-- C5, at a concrete input: the three payloads of `three_payloads` delivered by one read on
socket 5, with the decoder of self-delimiting messages. -/
theorem C5_drain_before_poll_witness :
    run length_tagged
        [read_env 5 (stream [[2, 7, 8], [0], [1, 9]]), accept_env 3 9, accept_env 3 9,
         accept_env 3 9] ⟨3, [5], [⟨[]⟩], []⟩ =
      some ⟨3, [5], [⟨[]⟩],
        [] ++ Event.select :: extraction_events length_tagged 0 [[2, 7, 8], [0], [1, 9]]⟩ ∧
    loop_body length_tagged (accept_env 3 9)
        ⟨3, [5], [⟨[]⟩],
          [] ++ Event.select :: extraction_events length_tagged 0 [[2, 7, 8], [0], [1, 9]]⟩ =
      poll_phase (accept_env 3 9)
        ⟨3, [5], [⟨[]⟩],
          [] ++ Event.select :: extraction_events length_tagged 0 [[2, 7, 8], [0], [1, 9]]⟩ :=
  (C5_drain_before_poll length_tagged).2 3 5 [] [2, 7, 8] [0] [1, 9]
    (accept_env 3 9) (accept_env 3 9) (accept_env 3 9) (accept_env 3 9)
    (by decide) (by decide) (by decide) (by decide) ⟨rfl, rfl, rfl, trivial⟩

/-- C7: connection ceiling.  Starting from the empty registry, any number of iterations of
the loop, whatever the operating system answers, runs without fault to a state whose
registry holds at most `MAX_CLIENT_SOCKET` = 20 socket handles. -/
theorem C7_connection_ceiling {Msg : Type} (dec : MsgPrototype Msg) (sock : Int)
    (envs : List Env) :
    MAX_CLIENT_SOCKET = 20 ∧
    ∃ st, run dec envs (init Msg sock) = some st ∧
      st.client_socket.length ≤ MAX_CLIENT_SOCKET := by
  obtain ⟨st, h1, _, _, h4, _, _⟩ :=
    run_spec dec envs (init Msg sock) rfl (by simp [init])
  exact ⟨rfl, st, h1, h4⟩

/-- C8: rejection at the ceiling.  With 20 registered connections the accept step leaves the
state as it is (same handles in the same order, same accumulators with the same bytes),
and the iteration goes on to the read loop on that state; with fewer than 20 and a
successful `accept`, the new handle and one empty accumulator are appended, and nothing
else changes. -/
theorem C8_rejection_at_ceiling {Msg : Type} (env : Env) (st : State Msg) :
    (st.client_socket.length = 20 →
      accept_step env st = st ∧
      (env.select_ret ≠ -1 → env.read_fds st.sock = true →
        poll_phase env st = recv_loop env { st with log := st.log ++ [Event.select] })) ∧
    (st.client_socket.length < 20 → env.accept_ret ≠ -1 →
      accept_step env st =
        { st with client_socket := st.client_socket ++ [env.accept_ret],
                  sers := st.sers ++ [⟨[]⟩] }) := by
  constructor
  · intro hfull
    have e : ∀ t : State Msg, t.client_socket.length = 20 → accept_step env t = t := by
      intro t ht
      simp [accept_step, ht, MAX_CLIENT_SOCKET]
    refine ⟨e st hfull, ?_⟩
    intro hsel hready
    simp only [poll_phase, hsel, if_false, hready, if_true]
    rw [e { st with log := st.log ++ [Event.select] } hfull]
  · intro hlt hacc
    have hne : ¬ st.client_socket.length = MAX_CLIENT_SOCKET := by
      simp [MAX_CLIENT_SOCKET]; omega
    simp [accept_step, hacc, hne, Serializer.empty]

/-- C8, at a concrete input: a 21st connection arrives at the full registry, and a second
connection arrives at a registry of one. -/
theorem C8_rejection_at_ceiling_witness :
    (accept_step (accept_env 3 30) (full_registry Unit) = full_registry Unit ∧
      ((accept_env 3 30).select_ret ≠ -1 →
        (accept_env 3 30).read_fds (full_registry Unit).sock = true →
        poll_phase (accept_env 3 30) (full_registry Unit) =
          recv_loop (accept_env 3 30)
            { full_registry Unit with log := (full_registry Unit).log ++ [Event.select] })) ∧
    accept_step (accept_env 3 6) (single Unit [0, 4]) =
      { single Unit [0, 4] with
          client_socket := (single Unit [0, 4]).client_socket ++ [(accept_env 3 6).accept_ret],
          sers := (single Unit [0, 4]).sers ++ [⟨[]⟩] } :=
  ⟨(C8_rejection_at_ceiling (accept_env 3 30) (full_registry Unit)).1 (by decide),
   (C8_rejection_at_ceiling (accept_env 3 6) (single Unit [0, 4])).2 (by decide) (by decide)⟩

/-- The outcome of `_configure`, for every conversion `atoi` and every message factory: it
fails exactly when the collect element is missing, the port attribute is missing or empty,
the value `atoi` gives for the port text is outside 0..65535, the msgtype attribute is
missing or empty, or msgtype names no known decoder; otherwise it stores the value `atoi`
gives for the port text and the decoder prototype for msgtype. -/
theorem configure_outcome {Proto : Type} (atoi : String → Int)
    (instantiate : String → Option Proto) (xmlnode : xml_node) :
    ((∃ e, _configure atoi instantiate xmlnode = Except.error e) ↔
      (xmlnode.child "collect" = none ∨
        ∃ inspec, xmlnode.child "collect" = some inspec ∧
          (inspec.attribute_value "port" = "" ∨
           atoi (inspec.attribute_value "port") < 0 ∨
           atoi (inspec.attribute_value "port") > 65535 ∨
           inspec.attribute_value "msgtype" = "" ∨
           instantiate (inspec.attribute_value "msgtype") = none))) ∧
    (∀ c, _configure atoi instantiate xmlnode = Except.ok c ↔
      ∃ inspec, xmlnode.child "collect" = some inspec ∧
        inspec.attribute_value "port" ≠ "" ∧
        0 ≤ atoi (inspec.attribute_value "port") ∧
        atoi (inspec.attribute_value "port") ≤ 65535 ∧
        inspec.attribute_value "msgtype" ≠ "" ∧
        instantiate (inspec.attribute_value "msgtype") = some c.msg_prototype ∧
        c.port = atoi (inspec.attribute_value "port")) := by
  unfold _configure
  cases hchild : xmlnode.child "collect" with
  | none => simp
  | some inspec =>
    simp only [Option.some.injEq, exists_eq_left', false_or]
    by_cases hport : inspec.attribute_value "port" = ""
    · simp [hport]
    · by_cases hrange : atoi (inspec.attribute_value "port") < 0 ∨
          atoi (inspec.attribute_value "port") > 65535
      · have hn : ¬ (0 ≤ atoi (inspec.attribute_value "port") ∧
            atoi (inspec.attribute_value "port") ≤ 65535) := by omega
        simp only [hport, if_false, hrange, if_true]
        constructor
        · simp only [Except.error.injEq, exists_eq', true_iff]
          tauto
        · intro c
          constructor
          · intro h; cases h
          · rintro ⟨_, h1, h2, _⟩
            exact absurd ⟨h1, h2⟩ hn
      · have h1 : 0 ≤ atoi (inspec.attribute_value "port") := by omega
        have h2 : atoi (inspec.attribute_value "port") ≤ 65535 := by omega
        have h3 : ¬ atoi (inspec.attribute_value "port") < 0 := by omega
        have h4 : ¬ atoi (inspec.attribute_value "port") > 65535 := by omega
        simp only [hport, if_false, hrange]
        by_cases hmsg : inspec.attribute_value "msgtype" = ""
        · simp [hmsg]
        · simp only [hmsg, if_false]
          cases hinst : instantiate (inspec.attribute_value "msgtype") with
          | none => simp
          | some proto =>
            constructor
            · simp [hport, h3, h4, hmsg]
            · intro c
              constructor
              · intro h
                injection h with h
                subst h
                exact ⟨hport, h1, h2, hmsg, rfl, rfl⟩
              · rintro ⟨_, _, _, _, h5, h6⟩
                cases c with
                | mk p m =>
                  simp only [Option.some.injEq] at h5
                  simp only at h6
                  subst h5 h6
                  rfl

/-- The conversion of a port text beyond the range of `int`: the low 32 bits are kept. -/
theorem stdlib_atoi_wraps :
    stdlib_atoi "4294967376" = 80 ∧ stdlib_atoi "65535" = 65535 ∧
    stdlib_atoi "-1" = -1 ∧ stdlib_atoi "2147483648" = -2147483648 :=
  ⟨rfl, rfl, rfl, rfl⟩

/-- C9: configuration validation fails on the code.  The configuration whose port attribute
is the non-numeric text abc, with a known message type, is not refused: `_configure`
succeeds and stores port 0; with the text 80abc it succeeds and stores port 80. -/
theorem C9_non_numeric_port_accepted :
    _configure stdlib_atoi example_factory (collect_config "abc") =
      Except.ok ⟨0, "Message"⟩ ∧
    _configure stdlib_atoi example_factory (collect_config "80abc") =
      Except.ok ⟨80, "Message"⟩ :=
  ⟨rfl, rfl⟩

/-- C10: registry alignment.  From the empty registry every execution runs without fault (so
every access `sers[i]` of the read loop is in bounds) through aligned states, and a later
state has the socket handles of an earlier one as its first handles, in the same order, and
at least as many accumulators.  On an aligned state each phase keeps the alignment: the
drain pass keeps the handles; the accept step appends at most one handle and, at the same
index, one empty accumulator; the read loop keeps the handles and changes the accumulator
at index `j` only by the bytes received on `client_socket[j]`; the drain pass changes the
accumulator at index `j` only by its own extraction. -/
theorem C10_registry_alignment {Msg : Type} (dec : MsgPrototype Msg) :
    (∀ (sock : Int) (envs1 envs2 : List Env),
      ∃ st1 st2, run dec envs1 (init Msg sock) = some st1 ∧
        run dec (envs1 ++ envs2) (init Msg sock) = some st2 ∧
        aligned st1 ∧ aligned st2 ∧
        (∃ added, st2.client_socket = st1.client_socket ++ added) ∧
        st1.sers.length ≤ st2.sers.length) ∧
    (∀ (env : Env) (st : State Msg), aligned st →
      (aligned (drain_pass dec st) ∧ (drain_pass dec st).client_socket = st.client_socket ∧
        ∀ j, (drain_pass dec st).sers[j]? =
          (st.sers[j]?).map (fun ser => (drain_one dec j ser).1)) ∧
      (aligned (accept_step env st) ∧
        ∃ added : List Int, added.length ≤ 1 ∧
          (accept_step env st).client_socket = st.client_socket ++ added ∧
          (accept_step env st).sers = st.sers ++ added.map (fun _ => Serializer.mk [])) ∧
      (∃ st', recv_loop env st = some st' ∧ aligned st' ∧
        st'.client_socket = st.client_socket ∧
        ∀ j s, st.client_socket[j]? = some s →
          st'.sers[j]? = (st.sers[j]?).map (recv_effect env j s)) ∧
      (∃ st', loop_body dec env st = some st' ∧ aligned st' ∧
        ∃ added : List Int, st'.client_socket = st.client_socket ++ added ∧
          st'.sers.length = st.sers.length + added.length)) := by
  constructor
  · intro sock envs1 envs2
    obtain ⟨st1, h1, _, a1, le1, _, _⟩ :=
      run_spec dec envs1 (init Msg sock) rfl (by simp [init])
    obtain ⟨st2, h2, _, a2, _, hadd, hl⟩ := run_spec dec envs2 st1 a1 le1
    refine ⟨st1, st2, h1, ?_, a1, a2, hadd, hl⟩
    rw [run_append, h1]
    exact h2
  · intro env st h
    refine ⟨⟨?_, rfl, ?_⟩, ?_, ?_, ?_⟩
    · unfold aligned at h ⊢
      simp [drain_pass, drain_sers_length, h]
    · intro j
      simpa [drain_pass] using drain_sers_getElem dec st.sers 0 j
    · obtain ⟨_, _, added, ha1, ha2, ha3, _⟩ := accept_step_spec env st
      refine ⟨?_, added, ha1, ha2, ha3⟩
      unfold aligned at h ⊢
      rw [ha2, ha3]
      simp [h]
    · obtain ⟨st', r1, _, r3, _, r5, r6⟩ := recv_loop_spec env st h
      refine ⟨st', r1, ?_, r3, r6⟩
      unfold aligned at h ⊢
      rw [r3, r5, h]
    · obtain ⟨st', e1, _, a1, added, _, c1, n1, _⟩ := loop_body_spec dec env st h
      exact ⟨st', e1, a1, added, c1, n1⟩

/-- C10, at a concrete input: two registered connections, data arriving on socket 5. -/
theorem C10_registry_alignment_witness :
    (aligned (drain_pass length_tagged (pair (List Byte) [0, 1, 0] [9])) ∧
      (drain_pass length_tagged (pair (List Byte) [0, 1, 0] [9])).client_socket = [5, 6] ∧
      ∀ j, (drain_pass length_tagged (pair (List Byte) [0, 1, 0] [9])).sers[j]? =
        ((pair (List Byte) [0, 1, 0] [9]).sers[j]?).map
          (fun ser => (drain_one length_tagged j ser).1)) ∧
    (aligned (accept_step (read_env 5 [1, 2]) (pair (List Byte) [0, 1, 0] [9])) ∧
      ∃ added : List Int, added.length ≤ 1 ∧
        (accept_step (read_env 5 [1, 2]) (pair (List Byte) [0, 1, 0] [9])).client_socket =
          [5, 6] ++ added ∧
        (accept_step (read_env 5 [1, 2]) (pair (List Byte) [0, 1, 0] [9])).sers =
          [⟨[0, 1, 0]⟩, ⟨[9]⟩] ++ added.map (fun _ => Serializer.mk [])) ∧
    (∃ st', recv_loop (read_env 5 [1, 2]) (pair (List Byte) [0, 1, 0] [9]) = some st' ∧
      aligned st' ∧ st'.client_socket = [5, 6] ∧
      ∀ j s, (pair (List Byte) [0, 1, 0] [9]).client_socket[j]? = some s →
        st'.sers[j]? = ((pair (List Byte) [0, 1, 0] [9]).sers[j]?).map
          (recv_effect (read_env 5 [1, 2]) j s)) ∧
    (∃ st', loop_body length_tagged (read_env 5 [1, 2]) (pair (List Byte) [0, 1, 0] [9]) =
        some st' ∧ aligned st' ∧
      ∃ added : List Int, st'.client_socket = [5, 6] ++ added ∧
        st'.sers.length = 2 + added.length) :=
  (C10_registry_alignment length_tagged).2 (read_env 5 [1, 2])
    (pair (List Byte) [0, 1, 0] [9]) (by decide)

end SerSource
